import Mathlib

set_option maxHeartbeats 1000000

/-- HTTP status codes are modelled by their numeric value. -/
abbrev HttpStatus := Nat

/-- Shallow embedding of the `Error` enum in `errors.rs`. Payloads of wrapped
library errors (`sqlx::Error`, `image::ImageError`, ...) are modelled as plain
message strings. -/
inductive Error where
  | Db (msg : String)
  | ImageErr (msg : String)
  | RocketErr (msg : String)
  | DotenvErr (msg : String)
  | NotFound
  | IoErr (msg : String)
  | Banned (reason : String)
  | MissingImage
  | MissingOrInvalidCaptchaID
  deriving DecidableEq, Repr

/-- The status code chosen for each variant by `Error::respond_to` in
`errors.rs`. -/
def Error.respondTo : Error → HttpStatus
  | .Db _ => 500
  | .ImageErr _ => 500
  | .RocketErr _ => 500
  | .DotenvErr _ => 500
  | .NotFound => 404
  | .IoErr _ => 500
  | .Banned _ => 200
  | .MissingImage => 422
  | .MissingOrInvalidCaptchaID => 422

/-- Outcome of running a Rust function that can also panic (via `unwrap`). -/
inductive RsOutcome (α : Type) where
  | ok (val : α)
  | err (e : Error)
  | panicked
  deriving DecidableEq, Repr

/-- Model of `IpNetwork`: a 32-bit address with a mask length. -/
structure IpNetwork where
  addr : Nat
  masklen : Nat
  deriving DecidableEq, Repr

/-- Model of the postgres inet containment test `a <<= b`: the mask of `b` is
no longer than the mask of `a` and the two agree on the first
`b.masklen` bits. -/
def ipContainedIn (a b : IpNetwork) : Prop :=
  b.masklen ≤ a.masklen ∧ a.addr / 2 ^ (32 - b.masklen) = b.addr / 2 ^ (32 - b.masklen)

instance (a b : IpNetwork) : Decidable (ipContainedIn a b) := by
  unfold ipContainedIn; infer_instance

/-- A row of the `boards` table: `name`, `title`, and the `next_post_id`
counter used by the post sequencer. -/
structure Board where
  name : String
  title : String
  nextPostId : Int
  deriving DecidableEq, Repr

/-- A row of the `posts` table, mirroring the `Post` struct in `models.rs`.
Timestamps are modelled as integers, image references as natural numbers. -/
structure Post where
  id : Int
  board : String
  title : Option String
  author : Option String
  email : Option String
  sage : Bool
  plaintextContent : Option String
  htmlContent : String
  postedAt : Int
  thread : Int
  ip : IpNetwork
  image : Option Nat
  deriving DecidableEq, Repr

/-- A row of the `replies` table. -/
structure ReplyRow where
  messageId : Int
  messageBoard : String
  replyId : Int
  replyBoard : String
  replyThread : Int
  deriving DecidableEq, Repr

/-- The relational state touched by the post sequencer. -/
structure Db where
  boards : List Board
  posts : List Post
  replies : List ReplyRow
  deriving DecidableEq, Repr

/-- maud's HTML escape of one character (`&`, `<`, `>`, `"`). -/
def escapeChar : Char → List Char
  | '&' => "&amp;".toList
  | '<' => "&lt;".toList
  | '>' => "&gt;".toList
  | '"' => "&quot;".toList
  | c => [c]

/-- maud's HTML escape of a character list. -/
def escapeHtml (l : List Char) : List Char :=
  (l.map escapeChar).flatten

/-- Split on newline characters, keeping a (possibly empty) final segment. -/
def splitOnNl : List Char → List (List Char)
  | [] => [[]]
  | '\n' :: rest => [] :: splitOnNl rest
  | c :: rest =>
    match splitOnNl rest with
    | g :: gs => (c :: g) :: gs
    | [] => [[c]]

/-- Strip one trailing carriage return, as Rust `str::lines` does per line. -/
def stripCr (l : List Char) : List Char :=
  if l.getLast? = some '\r' then l.dropLast else l

/-- Rust `str::lines`: split on newline, drop the empty segment produced by a
trailing newline, strip one trailing carriage return per line. -/
def rustLines (l : List Char) : List (List Char) :=
  let gs := splitOnNl l
  let gs := if gs.getLast? = some [] then gs.dropLast else gs
  gs.map stripCr

/-- One loop iteration of the maud template in `html_body`: a line starting
with a single `>` is wrapped in a `green-text` div, every line is escaped and
followed by a line break. -/
def lineHtml (line : List Char) : List Char :=
  (if line.head? = some '>' ∧ (line.drop 1).head? ≠ some '>' then
    "<div class=\"green-text\">".toList ++ escapeHtml line ++ "</div>".toList
  else
    escapeHtml line) ++ "<br>".toList

/-- Split `l` at the first occurrence of `pat`: the text strictly before the
occurrence and the text strictly after it. -/
def splitAtSub (pat : List Char) : List Char → Option (List Char × List Char)
  | [] => none
  | c :: rest =>
    if pat.isPrefixOf (c :: rest) then some ([], (c :: rest).drop pat.length)
    else
      match splitAtSub pat rest with
      | some (a, b) => some (c :: a, b)
      | none => none

/-- Fuel-bounded model of `BOLD_RE.replace_all` for the lazy pattern on
double asterisks; the fuel always exceeds the input length at call sites, so
the bound is never reached. -/
def boldReplaceF : Nat → List Char → List Char
  | 0, l => l
  | _ + 1, [] => []
  | fuel + 1, '*' :: '*' :: rest =>
    (match rest with
     | [] => ['*', '*']
     | c0 :: rest' =>
       match splitAtSub ['*', '*'] rest' with
       | some (a, b) => "<b>".toList ++ (c0 :: a) ++ "</b>".toList ++ boldReplaceF fuel b
       | none => '*' :: boldReplaceF fuel ('*' :: rest))
  | fuel + 1, c :: rest => c :: boldReplaceF fuel rest

/-- Fuel-bounded model of `ITALIC_RE.replace_all` for the lazy pattern on
single asterisks. -/
def italicReplaceF : Nat → List Char → List Char
  | 0, l => l
  | _ + 1, [] => []
  | fuel + 1, '*' :: rest =>
    (match rest with
     | [] => ['*']
     | c0 :: rest' =>
       match splitAtSub ['*'] rest' with
       | some (a, b) => "<em>".toList ++ (c0 :: a) ++ "</em>".toList ++ italicReplaceF fuel b
       | none => '*' :: italicReplaceF fuel rest)
  | fuel + 1, c :: rest => c :: italicReplaceF fuel rest

/-- The Unicode decimal-digit ranges (general category `Nd`, Unicode 15.0):
the character class matched by the regex crate's `\d` (`\p{Nd}`), which is
Unicode-aware by default, not ASCII-only. Each pair is an inclusive range of
code points. -/
def ndRanges : List (Nat × Nat) :=
  [(0x30, 0x39), (0x660, 0x669), (0x6F0, 0x6F9), (0x7C0, 0x7C9),
   (0x966, 0x96F), (0x9E6, 0x9EF), (0xA66, 0xA6F), (0xAE6, 0xAEF),
   (0xB66, 0xB6F), (0xBE6, 0xBEF), (0xC66, 0xC6F), (0xCE6, 0xCEF),
   (0xD66, 0xD6F), (0xDE6, 0xDEF), (0xE50, 0xE59), (0xED0, 0xED9),
   (0xF20, 0xF29), (0x1040, 0x1049), (0x1090, 0x1099), (0x17E0, 0x17E9),
   (0x1810, 0x1819), (0x1946, 0x194F), (0x19D0, 0x19D9), (0x1A80, 0x1A89),
   (0x1A90, 0x1A99), (0x1B50, 0x1B59), (0x1BB0, 0x1BB9), (0x1C40, 0x1C49),
   (0x1C50, 0x1C59), (0xA620, 0xA629), (0xA8D0, 0xA8D9), (0xA900, 0xA909),
   (0xA9D0, 0xA9D9), (0xA9F0, 0xA9F9), (0xAA50, 0xAA59), (0xABF0, 0xABF9),
   (0xFF10, 0xFF19), (0x104A0, 0x104A9), (0x10D30, 0x10D39),
   (0x11066, 0x1106F), (0x110F0, 0x110F9), (0x11136, 0x1113F),
   (0x111D0, 0x111D9), (0x112F0, 0x112F9), (0x11450, 0x11459),
   (0x114D0, 0x114D9), (0x11650, 0x11659), (0x116C0, 0x116C9),
   (0x11730, 0x11739), (0x118E0, 0x118E9), (0x11950, 0x11959),
   (0x11C50, 0x11C59), (0x11D50, 0x11D59), (0x11DA0, 0x11DA9),
   (0x16A60, 0x16A69), (0x16AC0, 0x16AC9), (0x16B50, 0x16B59),
   (0x1D7CE, 0x1D7FF), (0x1E140, 0x1E149), (0x1E2F0, 0x1E2F9),
   (0x1E4F0, 0x1E4F9), (0x1E950, 0x1E959), (0x1FBF0, 0x1FBF9)]

/-- Unicode-aware decimal-digit test: membership in general category `Nd`,
what the `\d` of `REPLY_RE` matches. -/
def isNd (c : Char) : Bool :=
  ndRanges.any (fun r => decide (r.1 ≤ c.toNat ∧ c.toNat ≤ r.2))

/-- Value of a run of ASCII digits. -/
def digitsToNat (l : List Char) : Nat :=
  l.foldl (fun a c => a * 10 + (c.toNat - '0'.toNat)) 0

/-- Rust `str::parse::<i32>` on a captured `\p{Nd}` digit run: `from_str`
accepts only ASCII digits, so the parse succeeds exactly when every character
of the run is an ASCII digit and the value fits in a 32-bit signed integer; a
run holding a non-ASCII decimal digit fails to parse (and the unwrap in
`html_body` panics on it). -/
def parseI32 (run : List Char) : Option Int :=
  if run.all Char.isDigit ∧ digitsToNat run ≤ 2147483647 then
    some (digitsToNat run)
  else none

/-- The collection `.map(parse().unwrap()).collect()`: all runs parse, or the
whole computation panics. -/
def parseAll : List (List Char) → Option (List Int)
  | [] => some []
  | run :: runs =>
    match parseI32 run, parseAll runs with
    | some v, some vs => some (v :: vs)
    | _, _ => none

/-- The escaped reply-marker prefix scanned for by `REPLY_RE`. -/
def gtgt : List Char := "&gt;&gt;".toList

/-- Tokenisation of the rendered body by the reply-marker pattern, one `txt`
token per unmatched character and one `marker` token per match. -/
inductive MarkerTok where
  | txt (c : Char)
  | marker (ds : List Char)
  deriving DecidableEq, Repr

/-- Fuel-bounded reply-marker tokeniser; follows the scanning discipline of
the regex engine (leftmost match, maximal digit run, resume after match). -/
def markerSplitF : Nat → List Char → List MarkerTok
  | 0, l => l.map MarkerTok.txt
  | _ + 1, [] => []
  | fuel + 1, c :: rest =>
    if gtgt.isPrefixOf (c :: rest) then
      let tl := (c :: rest).drop 8
      let ds := tl.takeWhile isNd
      if ds = [] then MarkerTok.txt c :: markerSplitF fuel rest
      else MarkerTok.marker ds :: markerSplitF fuel (tl.dropWhile isNd)
    else MarkerTok.txt c :: markerSplitF fuel rest

/-- `REPLY_RE.captures_iter`: the digit runs of all reply markers, in order. -/
def replyCapturesF : Nat → List Char → List (List Char)
  | 0, _ => []
  | _ + 1, [] => []
  | fuel + 1, c :: rest =>
    if gtgt.isPrefixOf (c :: rest) then
      let tl := (c :: rest).drop 8
      let ds := tl.takeWhile isNd
      if ds = [] then replyCapturesF fuel rest
      else ds :: replyCapturesF fuel (tl.dropWhile isNd)
    else replyCapturesF fuel rest

/-- The hyperlink written for a resolved reply marker, with the digit run
reproduced as captured and the target at the thread of the resolved post. -/
def mkLink (board : String) (ds : List Char) (thread : Int) : List Char :=
  "<a href=\"/".toList ++ board.toList ++ "/".toList ++ (toString thread).toList
    ++ "#".toList ++ ds ++ "\">&gt;&gt;".toList ++ ds ++ "</a>".toList

/-- `REPLY_RE.replace_all` with the resolution closure of `html_body`:
markers whose id is among the resolved `(id, thread)` rows become hyperlinks,
the rest are reproduced literally. -/
def replyReplaceF (board : String) (resolved : List (Int × Int)) :
    Nat → List Char → List Char
  | 0, l => l
  | _ + 1, [] => []
  | fuel + 1, c :: rest =>
    if gtgt.isPrefixOf (c :: rest) then
      let tl := (c :: rest).drop 8
      let ds := tl.takeWhile isNd
      if ds = [] then c :: replyReplaceF board resolved fuel rest
      else
        (match resolved.find? (fun r => r.1 == (digitsToNat ds : Int)) with
         | some r => mkLink board ds r.2
         | none => gtgt ++ ds)
          ++ replyReplaceF board resolved fuel (tl.dropWhile isNd)
    else c :: replyReplaceF board resolved fuel rest

/-- The post body after maud escaping, greentext wrapping, and the bold and
italic passes: the string `html_body` scans for reply markers. -/
def renderedSource (body : String) : List Char :=
  let base := ((rustLines body.toList).map lineHtml).flatten
  let afterBold := boldReplaceF (base.length + 1) base
  italicReplaceF (afterBold.length + 1) afterBold

/-- The digit runs captured by the reply-marker pattern over the rendered
body. -/
def markerRuns (body : String) : List (List Char) :=
  replyCapturesF ((renderedSource body).length + 1) (renderedSource body)

/-- Shallow embedding of `Post::html_body`. `dbFail` injects a failure of the
id-resolution query; `.panicked` models the `parse().unwrap()` panic on a
captured digit run that does not fit in an `i32`. -/
def Post.htmlBody (dbFail : Bool) (body : Option String) (board : String)
    (posts : List Post) : RsOutcome (String × List Int) :=
  match body with
  | none => .ok ("<div class=\"post-content\"></div>", [])
  | some body =>
    let src := renderedSource body
    match parseAll (markerRuns body) with
    | none => .panicked
    | some ids =>
      if dbFail then .err (.Db "injected")
      else
        let resolved := (posts.filter (fun p => ids.contains p.id && p.board == board)).map
          (fun p => (p.id, p.thread))
        .ok ((replyReplaceF board resolved (src.length + 1) src).asString,
          resolved.map (fun r => r.1))

/-- Insert into a descending-sorted list, keeping earlier elements first on
equal keys. -/
def insertDesc (key : α → Int) (x : α) : List α → List α
  | [] => [x]
  | y :: ys => if key x < key y then y :: insertDesc key x ys else x :: y :: ys

/-- Stable descending sort by an integer key, modelling `ORDER BY _ DESC`. -/
def sortByKeyDesc (key : α → Int) (l : List α) : List α :=
  l.foldr (insertDesc key) []

/-- Shallow embedding of the SQL in `Post::threads_for_board`. The CTE is
restricted to the requested board and to thread roots and non-sage posts; the
outer select over `posts` carries no board condition. -/
def Post.threadsForBoard (board : String) (posts : List Post) : List Post :=
  let rows := posts.filter (fun p => p.board == board && (p.thread == p.id || !p.sage))
  let tids := (rows.map (fun p => p.thread)).dedup
  let lastPost : Int → Int := fun t =>
    (((rows.filter (fun p => p.thread == t)).map (fun p => p.postedAt)).max?).getD 0
  let threads := tids.map (fun t => (t, lastPost t))
  let selected := posts.filter (fun p => threads.any (fun tr => p.thread == tr.1 && p.id == tr.1))
  sortByKeyDesc
    (fun p => ((threads.find? (fun tr => tr.1 == p.thread)).map (fun tr => tr.2)).getD 0)
    selected

/-- Injected failure points for the post sequencer; `edgeFailAt = some k`
makes the k-th reply-edge insert fail. -/
structure SeqFailures where
  beginFail : Bool
  counterFail : Bool
  htmlFail : Bool
  insertFail : Bool
  commitFail : Bool
  edgeFailAt : Option Nat
  deriving DecidableEq, Repr

/-- Run the reply-edge inserts of `Post::create` and `Post::create_thread`.
In the source they go through the pool, not the transaction, so each
successful insert is immediately committed; returns the grown `replies` table
and whether an insert failed. -/
def runEdgeInserts (mk : Int → ReplyRow) :
    Option Nat → List Int → List ReplyRow → List ReplyRow × Bool
  | _, [], rs => (rs, false)
  | some 0, _ :: _, rs => (rs, true)
  | some (k + 1), m :: ms, rs => runEdgeInserts mk (some k) ms (rs ++ [mk m])
  | none, m :: ms, rs => runEdgeInserts mk none ms (rs ++ [mk m])

/-- Shallow embedding of `Post::create_thread`. The counter update and the
post insert are buffered in the transaction and only applied on commit; the
reply-edge inserts run on the pool and are visible immediately. -/
def Post.createThread (f : SeqFailures) (board : String)
    (title author email : Option String) (sage : Bool) (content : Option String)
    (ip : IpNetwork) (image : Nat) (now : Int) (db : Db) : RsOutcome Int × Db :=
  if f.beginFail then (.err (.Db "injected"), db)
  else
    match db.boards.find? (fun b => b.name == board) with
    | none => (.err (.Db "RowNotFound"), db)
    | some b =>
      if f.counterFail then (.err (.Db "injected"), db)
      else
        let perBoardId := b.nextPostId + 1
        match Post.htmlBody f.htmlFail content board db.posts with
        | .panicked => (.panicked, db)
        | .err e => (.err e, db)
        | .ok (htmlContent, replied) =>
          if f.insertFail then (.err (.Db "injected"), db)
          else
            let newPost : Post :=
              { id := perBoardId, board := board, title := title, author := author,
                email := email, sage := sage, plaintextContent := content,
                htmlContent := htmlContent, postedAt := now, thread := perBoardId,
                ip := ip, image := some image }
            let mk : Int → ReplyRow := fun m =>
              { messageId := m, messageBoard := board, replyId := perBoardId,
                replyBoard := board, replyThread := perBoardId }
            let step := runEdgeInserts mk f.edgeFailAt replied db.replies
            if step.2 then (.err (.Db "injected"), { db with replies := step.1 })
            else if f.commitFail then (.err (.Db "injected"), { db with replies := step.1 })
            else
              (.ok perBoardId,
                { boards := db.boards.map (fun x =>
                    if x.name == board then { x with nextPostId := x.nextPostId + 1 } else x),
                  posts := db.posts ++ [newPost],
                  replies := step.1 })

/-- Shallow embedding of `Post::create` (reply case), with the same
transaction discipline as `Post.createThread`. -/
def Post.create (f : SeqFailures) (board : String) (thread : Int)
    (title author email : Option String) (sage : Bool) (content : Option String)
    (ip : IpNetwork) (image : Option Nat) (now : Int) (db : Db) : RsOutcome Int × Db :=
  if f.beginFail then (.err (.Db "injected"), db)
  else
    match db.boards.find? (fun b => b.name == board) with
    | none => (.err (.Db "RowNotFound"), db)
    | some b =>
      if f.counterFail then (.err (.Db "injected"), db)
      else
        let perBoardId := b.nextPostId + 1
        match Post.htmlBody f.htmlFail content board db.posts with
        | .panicked => (.panicked, db)
        | .err e => (.err e, db)
        | .ok (htmlContent, replied) =>
          if f.insertFail then (.err (.Db "injected"), db)
          else
            let newPost : Post :=
              { id := perBoardId, board := board, title := title, author := author,
                email := email, sage := sage, plaintextContent := content,
                htmlContent := htmlContent, postedAt := now, thread := thread,
                ip := ip, image := image }
            let mk : Int → ReplyRow := fun m =>
              { messageId := m, messageBoard := board, replyId := perBoardId,
                replyBoard := board, replyThread := thread }
            let step := runEdgeInserts mk f.edgeFailAt replied db.replies
            if step.2 then (.err (.Db "injected"), { db with replies := step.1 })
            else if f.commitFail then (.err (.Db "injected"), { db with replies := step.1 })
            else
              (.ok perBoardId,
                { boards := db.boards.map (fun x =>
                    if x.name == board then { x with nextPostId := x.nextPostId + 1 } else x),
                  posts := db.posts ++ [newPost],
                  replies := step.1 })

/-- Filesystem-and-table state of the image store: the set of written file
paths and the `images` digest rows. -/
structure FsDb where
  files : List String
  images : List Nat
  deriving DecidableEq, Repr

/-- Events performed by `Image::from_buf`, in order. -/
inductive ImgEvent where
  | dbSelect
  | fileWrite (path : String)
  | decode
  | encode
  | dbInsert
  deriving DecidableEq, Repr

/-- Injected failure points for `Image::from_buf`. -/
structure ImgFailures where
  selectFail : Bool
  createOrigFail : Bool
  writeOrigFail : Bool
  decodeFail : Bool
  encodeFail : Bool
  createThumbFail : Bool
  writeThumbFail : Bool
  insertFail : Bool
  deriving DecidableEq, Repr

/-- Path of a stored original, as in `format!("./images/.")`. -/
def origPath (h : Nat) : String := "./images/" ++ toString h

/-- Path of a stored thumbnail, as in `format!("./thumbs/..png")`. -/
def thumbPath (h : Nat) : String := "./thumbs/" ++ toString h ++ ".png"

/-- Shallow embedding of `Image::from_buf` with injected failures and an
event trace. The digest function (`md5`) is a parameter; a file path counts
as written once `File::create` succeeds. -/
def Image.fromBuf (md5 : List Nat → Nat) (f : ImgFailures) (buf : List Nat) (st : FsDb) :
    Except Error Nat × FsDb × List ImgEvent :=
  let hash := md5 buf
  if f.selectFail then (.error (.Db "injected"), st, [.dbSelect])
  else if hash ∈ st.images then (.ok hash, st, [.dbSelect])
  else if f.createOrigFail then (.error (.IoErr "injected"), st, [.dbSelect])
  else
    let st1 : FsDb := { st with files := origPath hash :: st.files }
    if f.writeOrigFail then
      (.error (.IoErr "injected"), st1, [.dbSelect, .fileWrite (origPath hash)])
    else if f.decodeFail then
      (.error (.ImageErr "injected"), st1, [.dbSelect, .fileWrite (origPath hash), .decode])
    else if f.encodeFail then
      (.error (.ImageErr "injected"), st1,
        [.dbSelect, .fileWrite (origPath hash), .decode, .encode])
    else if f.createThumbFail then
      (.error (.IoErr "injected"), st1,
        [.dbSelect, .fileWrite (origPath hash), .decode, .encode])
    else
      let st2 : FsDb := { st1 with files := thumbPath hash :: st1.files }
      if f.writeThumbFail then
        (.error (.IoErr "injected"), st2,
          [.dbSelect, .fileWrite (origPath hash), .decode, .encode,
            .fileWrite (thumbPath hash)])
      else if f.insertFail then
        (.error (.Db "injected"), st2,
          [.dbSelect, .fileWrite (origPath hash), .decode, .encode,
            .fileWrite (thumbPath hash), .dbInsert])
      else
        (.ok hash, { st2 with images := hash :: st2.images },
          [.dbSelect, .fileWrite (origPath hash), .decode, .encode,
            .fileWrite (thumbPath hash), .dbInsert])

/-- ASCII model of `str::to_lowercase`. -/
def strToLower (s : String) : String := (s.toList.map Char.toLower).asString

/-- Shallow embedding of `Captcha::verify` over the `captchas` table:
`DELETE .. WHERE id = $1 RETURNING solution`, then compare the first deleted
row's solution with the lowercased answer. -/
def Captcha.verify (id : Nat) (answer : String) (table : List (Nat × String)) :
    Bool × List (Nat × String) :=
  let deleted := table.filter (fun r => r.1 == id)
  let remaining := table.filter (fun r => r.1 != id)
  match deleted.head? with
  | some row => (row.2 == strToLower answer, remaining)
  | none => (false, remaining)

/-- A row of the `bans` table. -/
structure Ban where
  subnet : IpNetwork
  reason : String
  createdAt : Int
  duration : Int
  deriving DecidableEq, Repr

/-- The ban predicate of `NotBanned::from_request`: the requester's address
is contained in the ban's subnet and the ban has not expired. -/
def isActiveBan (ip : IpNetwork) (now : Int) (b : Ban) : Prop :=
  ipContainedIn ip b.subnet ∧ b.createdAt + b.duration > now

instance (ip : IpNetwork) (now : Int) (b : Ban) : Decidable (isActiveBan ip now b) := by
  unfold isActiveBan; infer_instance

/-- Outcome of a Rocket request guard. -/
inductive GuardOutcome where
  | success
  | failure (status : HttpStatus) (e : Error)
  deriving DecidableEq, Repr

/-- Shallow embedding of `NotBanned::from_request` (the database read is
assumed to succeed): the most recent matching unexpired ban, if any, yields a
`Banned(reason)` failure with status 403. -/
def NotBanned.fromRequest (ip : IpNetwork) (now : Int) (bans : List Ban) : GuardOutcome :=
  match (sortByKeyDesc (fun b => b.createdAt)
      (bans.filter (fun b => decide (isActiveBan ip now b)))).head? with
  | some b => .failure 403 (.Banned b.reason)
  | none => .success

/-- The `PostForm` fields of `create_post`; image bytes are a list of bytes
modelled as naturals. -/
structure SubmitForm where
  title : Option String
  author : Option String
  email : Option String
  sage : Bool
  content : Option String
  thread : Option Int
  board : String
  image : Option (List Nat)
  captcha : Option String
  deriving DecidableEq, Repr

/-- The whole mutable state a `/submit` request can touch. -/
structure App where
  db : Db
  captchas : List (Nat × String)
  fs : FsDb
  deriving DecidableEq, Repr

/-- The tail of `create_post` after the captcha and image-store steps: choose
`Post::create` or `Post::create_thread` and build the redirect. -/
def createPostTail (form : SubmitForm) (ip : IpNetwork) (now : Int) (seqF : SeqFailures)
    (image : Option Nat) (st : App) : RsOutcome (String × Int) × App :=
  match form.thread with
  | some t =>
    match Post.create seqF form.board t form.title form.author form.email form.sage
        form.content ip image now st.db with
    | (.ok _, db') => (.ok (form.board, t), { st with db := db' })
    | (.err e, db') => (.err e, { st with db := db' })
    | (.panicked, db') => (.panicked, { st with db := db' })
  | none =>
    match image with
    | some img =>
      match Post.createThread seqF form.board form.title form.author form.email form.sage
          form.content ip img now st.db with
      | (.ok newId, db') => (.ok (form.board, newId), { st with db := db' })
      | (.err e, db') => (.err e, { st with db := db' })
      | (.panicked, db') => (.panicked, { st with db := db' })
    | none => (.err .MissingImage, st)

/-- Shallow embedding of the `create_post` handler in `routes/public.rs`.
`cookie` is the `captcha_id` cookie after uuid parsing (`none`: no cookie at
all, `some none`: present but unparseable). The `.panicked` case is
`form.captcha().unwrap()` on a missing form field. A successful run
redirects to the pair of board name and thread id. -/
def createPost (cookie : Option (Option Nat)) (form : SubmitForm) (ip : IpNetwork)
    (now : Int) (md5 : List Nat → Nat) (imgF : ImgFailures) (seqF : SeqFailures)
    (st : App) : RsOutcome (String × Int) × App :=
  match cookie with
  | none => (.err .MissingOrInvalidCaptchaID, st)
  | some none => (.err .MissingOrInvalidCaptchaID, st)
  | some (some cid) =>
    match form.captcha with
    | none => (.panicked, st)
    | some ans =>
      let v := Captcha.verify cid ans st.captchas
      let st1 : App := { st with captchas := v.2 }
      if !v.1 then (.err .MissingOrInvalidCaptchaID, st1)
      else
        match form.image with
        | some bytes =>
          match Image.fromBuf md5 imgF bytes st1.fs with
          | (.error e, fs', _) => (.err e, { st1 with fs := fs' })
          | (.ok h, fs', _) => createPostTail form ip now seqF (some h) { st1 with fs := fs' }
        | none => createPostTail form ip now seqF none st1

/-- A `/submit` request as Rocket dispatches it: guard outcome or handler
outcome. -/
inductive RouteResult where
  | handled (r : RsOutcome (String × Int))
  | guardFail (status : HttpStatus) (e : Error)
  deriving DecidableEq, Repr

/-- The `/submit` route: the `NotBanned` guard runs first; only on success is
the handler body executed. -/
def submitRoute (bans : List Ban) (ip : IpNetwork) (now : Int)
    (cookie : Option (Option Nat)) (form : SubmitForm) (md5 : List Nat → Nat)
    (imgF : ImgFailures) (seqF : SeqFailures) (st : App) : RouteResult × App :=
  match NotBanned.fromRequest ip now bans with
  | .failure s e => (.guardFail s e, st)
  | .success =>
    let r := createPost cookie form ip now md5 imgF seqF st
    (.handled r.1, r.2)

/-- The claim-level rendering of one reply-marker token: a marker whose id
resolves to a post on the board becomes the hyperlink to that post's thread,
an unresolved marker stays literal escaped text, and plain characters pass
through. -/
def resolveMarker (board : String) (posts : List Post) : MarkerTok → List Char
  | .txt c => [c]
  | .marker ds =>
    match posts.find? (fun p => (p.id == (digitsToNat ds : Int)) && (p.board == board)) with
    | some p => mkLink board ds p.thread
    | none => gtgt ++ ds

/-- Helper: a successful `parseAll` returns exactly the numeric values of the
digit runs. -/
theorem parseAll_eq_map (l : List (List Char)) (v : List Int)
    (h : parseAll l = some v) : v = l.map (fun run => (digitsToNat run : Int)) := by
  induction l generalizing v with
  | nil =>
    simp only [parseAll, Option.some.injEq] at h
    simp [← h]
  | cons run runs ih =>
    simp only [parseAll] at h
    cases hp : parseI32 run <;> rw [hp] at h
    · simp at h
    · cases hr : parseAll runs <;> rw [hr] at h
      · simp at h
      · rename_i a as
        simp only [Option.some.injEq] at h
        have ha : a = (digitsToNat run : Int) := by
          simp only [parseI32] at hp
          split at hp <;> simp_all
        simp [← h, ha, ih as hr]

/-- Helper: `parseAll` succeeds when every digit run is ASCII and fits in an
`i32`. -/
theorem parseAll_isSome (l : List (List Char))
    (h : ∀ run ∈ l, run.all Char.isDigit = true ∧ digitsToNat run ≤ 2147483647) :
    ∃ v, parseAll l = some v := by
  induction l with
  | nil => exact ⟨[], rfl⟩
  | cons run runs ih =>
    obtain ⟨v, hv⟩ := ih (fun r hr => h r (List.mem_cons_of_mem _ hr))
    have hp : parseI32 run = some ((digitsToNat run : Int)) := by
      simp [parseI32, (h run (List.mem_cons_self _ _)).1,
        (h run (List.mem_cons_self _ _)).2]
    exact ⟨(digitsToNat run : Int) :: v, by simp [parseAll, hp, hv]⟩

/-- C10 counterexample: the digit run `99999999999` is captured by the
reply-marker pattern but does not fit in an `i32`, so the `parse().unwrap()`
in `html_body` panics instead of succeeding. -/
theorem html_body_parse_unwrap_panics :
    Post.htmlBody false (some ">>99999999999") "x" [] = .panicked := by decide

/-- C10 (amended): `Post::html_body` does not hit the `parse().unwrap()`
panic on any body whose captured reply-marker digit runs are all runs of
ASCII digits with values of at most 2147483647 (`i32::from_str` accepts only
ASCII digits, so a captured non-ASCII `\p{Nd}` run also panics). -/
theorem html_body_no_panic_of_parseable_markers (body board : String) (posts : List Post)
    (h : ∀ run ∈ markerRuns body, run.all Char.isDigit = true ∧
      digitsToNat run ≤ 2147483647) :
    Post.htmlBody false (some body) board posts ≠ .panicked := by
  obtain ⟨v, hv⟩ := parseAll_isSome (markerRuns body) h
  simp [Post.htmlBody, hv]

/-- C10 witness: a body with the single marker `5` satisfies the bound, and
`html_body` does not panic on it. -/
theorem html_body_no_panic_of_parseable_markers_witness :
    (∀ run ∈ markerRuns ">>5", run.all Char.isDigit = true ∧
      digitsToNat run ≤ 2147483647) ∧
    Post.htmlBody false (some ">>5") "x" [] ≠ .panicked :=
  ⟨by decide, html_body_no_panic_of_parseable_markers ">>5" "x" [] (by decide)⟩

/-- C3 counterexample: on the body `>>2147483648` with a board holding no
posts, the claim requires the literal escaped text and an empty reply list,
but `html_body` panics in the `parse().unwrap()` instead. -/
theorem html_body_overlong_marker_panics :
    Post.htmlBody false (some ">>2147483648") "b" [] = .panicked := by decide

/-- C2: a request carrying a parseable `captcha_id` cookie but no `captcha`
form field makes `create_post` panic in `form.captcha().unwrap()` instead of
returning a typed outcome, leaving the state untouched. -/
theorem create_post_missing_captcha_field_panics :
    createPost (some (some 7))
        { title := none, author := none, email := none, sage := false, content := none,
          thread := none, board := "a", image := none, captcha := none }
        ⟨0, 32⟩ 0 (fun l => l.length)
        ⟨false, false, false, false, false, false, false, false⟩
        ⟨false, false, false, false, false, none⟩
        ⟨⟨[], [], []⟩, [], ⟨[], []⟩⟩ =
      (.panicked, ⟨⟨[], [], []⟩, [], ⟨[], []⟩⟩) := by rfl

/-- C1: in `Post::create_thread` the reply-edge insert runs on the pool, not
on the transaction, so when the final commit fails the post insert and the
counter increment roll back but the already-inserted reply edge stays
committed, referencing the never-created post 2. -/
theorem post_create_thread_commit_failure_leaves_reply_edge :
    Post.createThread ⟨false, false, false, false, true, none⟩ "a" none none none false
        (some ">>1") ⟨0, 32⟩ 7 10
        ⟨[⟨"a", "t", 1⟩],
         [{ id := 1, board := "a", title := none, author := none, email := none,
            sage := false, plaintextContent := none, htmlContent := "", postedAt := 0,
            thread := 1, ip := ⟨0, 32⟩, image := none }], []⟩ =
      (.err (.Db "injected"),
        ⟨[⟨"a", "t", 1⟩],
         [{ id := 1, board := "a", title := none, author := none, email := none,
            sage := false, plaintextContent := none, htmlContent := "", postedAt := 0,
            thread := 1, ip := ⟨0, 32⟩, image := none }],
         [⟨1, "a", 2, "a", 2⟩]⟩) := by decide

/-- C7: the outer select of `threads_for_board` has no board condition, so
for two boards that each have a thread with id 1, listing board `a` also
returns the thread-root post of board `b`. -/
theorem threads_for_board_returns_foreign_board_root :
    Post.threadsForBoard "a"
        [{ id := 1, board := "a", title := none, author := none, email := none,
           sage := false, plaintextContent := none, htmlContent := "", postedAt := 10,
           thread := 1, ip := ⟨0, 32⟩, image := none },
         { id := 1, board := "b", title := none, author := none, email := none,
           sage := false, plaintextContent := none, htmlContent := "", postedAt := 20,
           thread := 1, ip := ⟨0, 32⟩, image := none }] =
      [{ id := 1, board := "a", title := none, author := none, email := none,
         sage := false, plaintextContent := none, htmlContent := "", postedAt := 10,
         thread := 1, ip := ⟨0, 32⟩, image := none },
       { id := 1, board := "b", title := none, author := none, email := none,
         sage := false, plaintextContent := none, htmlContent := "", postedAt := 20,
         thread := 1, ip := ⟨0, 32⟩, image := none }] := by decide

/-- C4: `Image::from_buf` inserts the digest row only after both files were
written: on every execution path, including every injected failure, the
invariant that an `images` row implies both the original and the thumbnail
path exist is preserved. -/
theorem image_from_buf_record_implies_files
    (md5 : List Nat → Nat) (f : ImgFailures) (buf : List Nat) (st : FsDb)
    (hinv : ∀ h ∈ st.images, origPath h ∈ st.files ∧ thumbPath h ∈ st.files) :
    ∀ h ∈ (Image.fromBuf md5 f buf st).2.1.images,
      origPath h ∈ (Image.fromBuf md5 f buf st).2.1.files ∧
      thumbPath h ∈ (Image.fromBuf md5 f buf st).2.1.files := by
  intro h hmem
  by_cases h1 : f.selectFail
  · simp only [Image.fromBuf, h1, if_true] at hmem ⊢
    exact hinv h hmem
  · by_cases h2 : md5 buf ∈ st.images
    · simp only [Image.fromBuf, h1, h2, if_true, if_false, Bool.false_eq_true,
        ite_true, ite_false] at hmem ⊢
      exact hinv h hmem
    · by_cases h3 : f.createOrigFail
      · simp only [Image.fromBuf, h1, h2, h3] at hmem ⊢
        simp only [if_false, if_true, Bool.false_eq_true, ite_true, ite_false] at hmem ⊢
        exact hinv h hmem
      · by_cases h4 : f.writeOrigFail
        · simp only [Image.fromBuf, h1, h2, h3, h4] at hmem ⊢
          simp only [if_false, if_true, Bool.false_eq_true, ite_true, ite_false] at hmem ⊢
          exact ⟨List.mem_cons_of_mem _ (hinv h hmem).1,
            List.mem_cons_of_mem _ (hinv h hmem).2⟩
        · by_cases h5 : f.decodeFail
          · simp only [Image.fromBuf, h1, h2, h3, h4, h5] at hmem ⊢
            simp only [if_false, if_true, Bool.false_eq_true, ite_true, ite_false] at hmem ⊢
            exact ⟨List.mem_cons_of_mem _ (hinv h hmem).1,
              List.mem_cons_of_mem _ (hinv h hmem).2⟩
          · by_cases h6 : f.encodeFail
            · simp only [Image.fromBuf, h1, h2, h3, h4, h5, h6] at hmem ⊢
              simp only [if_false, if_true, Bool.false_eq_true, ite_true, ite_false] at hmem ⊢
              exact ⟨List.mem_cons_of_mem _ (hinv h hmem).1,
                List.mem_cons_of_mem _ (hinv h hmem).2⟩
            · by_cases h7 : f.createThumbFail
              · simp only [Image.fromBuf, h1, h2, h3, h4, h5, h6, h7] at hmem ⊢
                simp only [if_false, if_true, Bool.false_eq_true, ite_true, ite_false]
                  at hmem ⊢
                exact ⟨List.mem_cons_of_mem _ (hinv h hmem).1,
                  List.mem_cons_of_mem _ (hinv h hmem).2⟩
              · by_cases h8 : f.writeThumbFail
                · simp only [Image.fromBuf, h1, h2, h3, h4, h5, h6, h7, h8] at hmem ⊢
                  simp only [if_false, if_true, Bool.false_eq_true, ite_true, ite_false]
                    at hmem ⊢
                  exact ⟨List.mem_cons_of_mem _ (List.mem_cons_of_mem _ (hinv h hmem).1),
                    List.mem_cons_of_mem _ (List.mem_cons_of_mem _ (hinv h hmem).2)⟩
                · by_cases h9 : f.insertFail
                  · simp only [Image.fromBuf, h1, h2, h3, h4, h5, h6, h7, h8, h9]
                      at hmem ⊢
                    simp only [if_false, if_true, Bool.false_eq_true, ite_true, ite_false]
                      at hmem ⊢
                    exact ⟨List.mem_cons_of_mem _ (List.mem_cons_of_mem _ (hinv h hmem).1),
                      List.mem_cons_of_mem _ (List.mem_cons_of_mem _ (hinv h hmem).2)⟩
                  · simp only [Image.fromBuf, h1, h2, h3, h4, h5, h6, h7, h8, h9]
                      at hmem ⊢
                    simp only [if_false, if_true, Bool.false_eq_true, ite_true, ite_false]
                      at hmem ⊢
                    rcases List.mem_cons.mp hmem with hh | hh
                    · subst hh
                      exact ⟨List.mem_cons_of_mem _ (List.mem_cons_self _ _),
                        List.mem_cons_self _ _⟩
                    · exact ⟨List.mem_cons_of_mem _ (List.mem_cons_of_mem _ (hinv h hh).1),
                        List.mem_cons_of_mem _ (List.mem_cons_of_mem _ (hinv h hh).2)⟩

/-- C4 witness: the invariant holds trivially on the empty store, and after a
fully successful call on the buffer `[1]` the freshly recorded digest 1 has
both its files on disk. -/
theorem image_from_buf_record_implies_files_witness :
    origPath 1 ∈ (Image.fromBuf (fun l => l.length)
        ⟨false, false, false, false, false, false, false, false⟩ [1] ⟨[], []⟩).2.1.files ∧
    thumbPath 1 ∈ (Image.fromBuf (fun l => l.length)
        ⟨false, false, false, false, false, false, false, false⟩ [1] ⟨[], []⟩).2.1.files :=
  image_from_buf_record_implies_files (fun l => l.length)
    ⟨false, false, false, false, false, false, false, false⟩ [1] ⟨[], []⟩ (by simp)
    1 (by decide)

/-- Helper: a successful `Image::from_buf` returns the digest of the buffer,
and afterwards that digest has an `images` row. -/
theorem image_from_buf_ok (md5 : List Nat → Nat) (f : ImgFailures) (buf : List Nat)
    (st : FsDb) (d : Nat) (h : (Image.fromBuf md5 f buf st).1 = .ok d) :
    d = md5 buf ∧ md5 buf ∈ (Image.fromBuf md5 f buf st).2.1.images := by
  by_cases h1 : f.selectFail
  · simp [Image.fromBuf, h1] at h
  · by_cases h2 : md5 buf ∈ st.images
    · simp only [Image.fromBuf, h1, h2] at h ⊢
      simp_all
    · by_cases h3 : f.createOrigFail
      · simp [Image.fromBuf, h1, h2, h3] at h
      · by_cases h4 : f.writeOrigFail
        · simp [Image.fromBuf, h1, h2, h3, h4] at h
        · by_cases h5 : f.decodeFail
          · simp [Image.fromBuf, h1, h2, h3, h4, h5] at h
          · by_cases h6 : f.encodeFail
            · simp [Image.fromBuf, h1, h2, h3, h4, h5, h6] at h
            · by_cases h7 : f.createThumbFail
              · simp [Image.fromBuf, h1, h2, h3, h4, h5, h6, h7] at h
              · by_cases h8 : f.writeThumbFail
                · simp [Image.fromBuf, h1, h2, h3, h4, h5, h6, h7, h8] at h
                · by_cases h9 : f.insertFail
                  · simp [Image.fromBuf, h1, h2, h3, h4, h5, h6, h7, h8, h9] at h
                  · simp only [Image.fromBuf, h1, h2, h3, h4, h5, h6, h7, h8, h9] at h ⊢
                    simp_all

/-- C5: if a first `Image::from_buf` call on `buf` succeeded, its result is
the content digest of `buf`, and a second call on the same bytes (with a
working select) returns the same digest at once, leaves the state unchanged,
and performs only the existence query: no decode and no file write. -/
theorem image_from_buf_idempotent (md5 : List Nat → Nat) (f1 f2 : ImgFailures)
    (buf : List Nat) (st : FsDb) (d : Nat)
    (h1 : (Image.fromBuf md5 f1 buf st).1 = .ok d)
    (h2 : f2.selectFail = false) :
    d = md5 buf ∧
    Image.fromBuf md5 f2 buf (Image.fromBuf md5 f1 buf st).2.1 =
      (.ok d, (Image.fromBuf md5 f1 buf st).2.1, [.dbSelect]) := by
  obtain ⟨hd, hmem⟩ := image_from_buf_ok md5 f1 buf st d h1
  refine ⟨hd, ?_⟩
  generalize hg : (Image.fromBuf md5 f1 buf st).2.1 = mid at hmem ⊢
  simp [Image.fromBuf, h2, hmem, hd]

/-- C5 witness: storing `[3, 4]` once succeeds with the digest 2 under the
length digest function, and the second call is a pure lookup. -/
theorem image_from_buf_idempotent_witness :
    (2 : Nat) = (fun l : List Nat => l.length) [3, 4] ∧
    Image.fromBuf (fun l : List Nat => l.length)
        ⟨false, false, false, false, false, false, false, false⟩ [3, 4]
        (Image.fromBuf (fun l : List Nat => l.length)
          ⟨false, false, false, false, false, false, false, false⟩ [3, 4] ⟨[], []⟩).2.1 =
      (.ok 2,
        (Image.fromBuf (fun l : List Nat => l.length)
          ⟨false, false, false, false, false, false, false, false⟩ [3, 4] ⟨[], []⟩).2.1,
        [.dbSelect]) :=
  image_from_buf_idempotent (fun l => l.length)
    ⟨false, false, false, false, false, false, false, false⟩
    ⟨false, false, false, false, false, false, false, false⟩ [3, 4] ⟨[], []⟩ 2
    (by rfl) (by rfl)

/-- Helper: in a table whose keys are nodup, two rows with the same key carry
the same payload. -/
theorem nodup_keys_unique (l : List (Nat × String)) (hnd : (l.map Prod.fst).Nodup)
    (id : Nat) (a b : String) (ha : (id, a) ∈ l) (hb : (id, b) ∈ l) : a = b := by
  induction l with
  | nil => cases ha
  | cons x xs ih =>
    rw [List.map_cons, List.nodup_cons] at hnd
    rcases List.mem_cons.mp ha with ha' | ha' <;> rcases List.mem_cons.mp hb with hb' | hb'
    · have h := ha'.trans hb'.symm
      simpa using h
    · exfalso
      apply hnd.1
      rw [← ha']
      simpa using List.mem_map_of_mem Prod.fst hb'
    · exfalso
      apply hnd.1
      rw [← hb']
      simpa using List.mem_map_of_mem Prod.fst ha'
    · exact ih hnd.2 ha' hb'

/-- C6: `Captcha::verify` deletes every row with the given id regardless of
the comparison outcome, returns true exactly when a row existed whose stored
solution equals the lowercased answer, and a second verification with the
same id therefore returns false. -/
theorem captcha_verify_single_use (id : Nat) (ans ans2 : String)
    (table : List (Nat × String)) (hnd : (table.map Prod.fst).Nodup) :
    (Captcha.verify id ans table).2 = table.filter (fun r => r.1 != id) ∧
    ((Captcha.verify id ans table).1 = true ↔
      ∃ sol, (id, sol) ∈ table ∧ sol = strToLower ans) ∧
    (Captcha.verify id ans2 (Captcha.verify id ans table).2).1 = false := by
  have hrem : (Captcha.verify id ans table).2 = table.filter (fun r => r.1 != id) := by
    simp only [Captcha.verify]
    cases (table.filter (fun r => r.1 == id)).head? <;> rfl
  refine ⟨hrem, ?_, ?_⟩
  · simp only [Captcha.verify]
    cases hd : (table.filter (fun r => r.1 == id)).head? with
    | none =>
      simp only [Bool.false_eq_true, false_iff]
      rintro ⟨sol, hmem, _⟩
      have hmf : (id, sol) ∈ table.filter (fun r => r.1 == id) :=
        List.mem_filter.mpr ⟨hmem, by simp⟩
      rw [List.head?_eq_none_iff] at hd
      rw [hd] at hmf
      cases hmf
    | some row =>
      have hrowmem : row ∈ table.filter (fun r => r.1 == id) :=
        List.mem_of_mem_head? (Option.mem_def.mpr hd)
      have hrow := List.mem_filter.mp hrowmem
      have hkey : row.1 = id := by simpa using hrow.2
      simp only [beq_iff_eq]
      constructor
      · intro hsol
        refine ⟨row.2, ?_, hsol⟩
        have hpair : (row.1, row.2) = row := rfl
        rw [← hkey, hpair]
        exact hrow.1
      · rintro ⟨sol, hmem, hsol⟩
        have hsame : sol = row.2 := by
          refine nodup_keys_unique table hnd id sol row.2 hmem ?_
          have hpair : (row.1, row.2) = row := rfl
          rw [← hkey, hpair]
          exact hrow.1
        rw [← hsame, hsol]
  · rw [hrem]
    have hnil : (table.filter (fun r => r.1 != id)).filter (fun r => r.1 == id) = [] := by
      rw [List.filter_eq_nil_iff]
      intro a ha
      have h := (List.mem_filter.mp ha).2
      rw [bne_iff_ne] at h
      simp [h]
    simp [Captcha.verify, hnil]

/-- C6 witness: a single challenge with solution `ok`, answered `OK`, is
consumed; replaying the token fails. -/
theorem captcha_verify_single_use_witness :
    (Captcha.verify 1 "OK" [(1, "ok")]).2 = [(1, "ok")].filter (fun r => r.1 != 1) ∧
    ((Captcha.verify 1 "OK" [(1, "ok")]).1 = true ↔
      ∃ sol, (1, sol) ∈ [(1, "ok")] ∧ sol = strToLower "OK") ∧
    (Captcha.verify 1 "ok" (Captcha.verify 1 "OK" [(1, "ok")]).2).1 = false :=
  captcha_verify_single_use 1 "OK" "ok" [(1, "ok")] (by decide)

/-- Helper: membership is preserved by the descending insertion. -/
theorem mem_insertDesc {α : Type} (key : α → Int) (x a : α) (l : List α) :
    a ∈ insertDesc key x l ↔ a = x ∨ a ∈ l := by
  induction l with
  | nil => simp [insertDesc]
  | cons y ys ih =>
    simp only [insertDesc]
    split
    · simp only [List.mem_cons, ih]
      tauto
    · simp only [List.mem_cons]

/-- Helper: the descending sort is a permutation as far as membership goes. -/
theorem mem_sortByKeyDesc {α : Type} (key : α → Int) (a : α) (l : List α) :
    a ∈ sortByKeyDesc key l ↔ a ∈ l := by
  induction l with
  | nil => simp [sortByKeyDesc]
  | cons y ys ih =>
    simp only [sortByKeyDesc, List.foldr_cons] at ih ⊢
    rw [mem_insertDesc, ih, List.mem_cons]

/-- C8: whenever some ban in the table covers the requester's address and has
not expired, the `NotBanned` guard fails with `Banned(reason)` taken from such
a ban and the whole route returns the rejection with the state untouched (the
handler body never runs); the `Banned` responder status is 200, a non-error
status. With no active matching ban the guard succeeds and the request
reaches the handler. -/
theorem not_banned_guard_spec (ip : IpNetwork) (now : Int) (bans : List Ban) :
    ((∃ b ∈ bans, isActiveBan ip now b) →
      ∃ b ∈ bans, isActiveBan ip now b ∧
        NotBanned.fromRequest ip now bans = .failure 403 (.Banned b.reason) ∧
        Error.respondTo (.Banned b.reason) = 200 ∧
        ∀ cookie form md5 imgF seqF st,
          submitRoute bans ip now cookie form md5 imgF seqF st =
            (.guardFail 403 (.Banned b.reason), st)) ∧
    ((∀ b ∈ bans, ¬ isActiveBan ip now b) →
      NotBanned.fromRequest ip now bans = .success ∧
      ∀ cookie form md5 imgF seqF st,
        submitRoute bans ip now cookie form md5 imgF seqF st =
          (.handled (createPost cookie form ip now md5 imgF seqF st).1,
            (createPost cookie form ip now md5 imgF seqF st).2)) := by
  constructor
  · rintro ⟨b0, hb0, hactive⟩
    have hb0f : b0 ∈ bans.filter (fun b => decide (isActiveBan ip now b)) :=
      List.mem_filter.mpr ⟨hb0, by simpa using hactive⟩
    have hb0s : b0 ∈ sortByKeyDesc (fun b => b.createdAt)
        (bans.filter (fun b => decide (isActiveBan ip now b))) :=
      (mem_sortByKeyDesc _ _ _).mpr hb0f
    cases hsrt : sortByKeyDesc (fun b => b.createdAt)
        (bans.filter (fun b => decide (isActiveBan ip now b))) with
    | nil => rw [hsrt] at hb0s; cases hb0s
    | cons hd tl =>
      have hhd : hd ∈ bans.filter (fun b => decide (isActiveBan ip now b)) := by
        refine (mem_sortByKeyDesc (fun b => b.createdAt) hd _).mp ?_
        rw [hsrt]
        exact List.mem_cons_self hd tl
      have hhd' := List.mem_filter.mp hhd
      refine ⟨hd, hhd'.1, by simpa using hhd'.2, ?_, rfl, ?_⟩
      · simp [NotBanned.fromRequest, hsrt]
      · intro cookie form md5 imgF seqF st
        simp [submitRoute, NotBanned.fromRequest, hsrt]
  · intro hnone
    have hfil : bans.filter (fun b => decide (isActiveBan ip now b)) = [] := by
      rw [List.filter_eq_nil_iff]
      intro b hb
      simpa using hnone b hb
    have hsort : NotBanned.fromRequest ip now bans = .success := by
      simp [NotBanned.fromRequest, hfil, sortByKeyDesc]
    refine ⟨hsort, ?_⟩
    intro cookie form md5 imgF seqF st
    simp [submitRoute, hsort]

/-- C8 witness: a /32 ban on address 5 created at time 0 with duration 10 is
active at time 5 and rejects the request. -/
theorem not_banned_guard_spec_witness :
    ∃ b ∈ [(⟨⟨5, 32⟩, "bad", 0, 10⟩ : Ban)], isActiveBan ⟨5, 32⟩ 5 b ∧
      NotBanned.fromRequest ⟨5, 32⟩ 5 [⟨⟨5, 32⟩, "bad", 0, 10⟩] =
        .failure 403 (.Banned b.reason) ∧
      Error.respondTo (.Banned b.reason) = 200 ∧
      ∀ cookie form md5 imgF seqF st,
        submitRoute [⟨⟨5, 32⟩, "bad", 0, 10⟩] ⟨5, 32⟩ 5 cookie form md5 imgF seqF st =
          (.guardFail 403 (.Banned b.reason), st) :=
  (not_banned_guard_spec ⟨5, 32⟩ 5 [⟨⟨5, 32⟩, "bad", 0, 10⟩]).1
    ⟨⟨⟨5, 32⟩, "bad", 0, 10⟩, by decide, by decide⟩

/-- Helper: the only error `html_body` can produce is a database error of the
resolution query. -/
theorem html_body_err_eq (dbFail : Bool) (body : Option String) (board : String)
    (posts : List Post) (e : Error)
    (h : Post.htmlBody dbFail body board posts = .err e) : e = .Db "injected" := by
  cases body with
  | none => simp [Post.htmlBody] at h
  | some b =>
    simp only [Post.htmlBody] at h
    cases hp : parseAll (markerRuns b) <;> rw [hp] at h
    · simp at h
    · by_cases hdb : dbFail
      · simp [hdb] at h
        exact h.symm
      · simp [hdb] at h

/-- Helper: `Post::create_thread` never fails with `MissingImage`; its
failures are database errors. -/
theorem post_create_thread_ne_missing_image (f : SeqFailures) (board : String)
    (title author email : Option String) (sage : Bool) (content : Option String)
    (ip : IpNetwork) (image : Nat) (now : Int) (db : Db) :
    (Post.createThread f board title author email sage content ip image now db).1 ≠
      .err .MissingImage := by
  intro h
  simp only [Post.createThread] at h
  repeat' split at h
  all_goals try simp_all
  all_goals {
    have hx : Post.htmlBody f.htmlFail content board db.posts =
        RsOutcome.err Error.MissingImage := by assumption
    have := html_body_err_eq f.htmlFail content board db.posts Error.MissingImage hx
    simp at this
  }

/-- Helper: `Post::create` never fails with `MissingImage`; its failures are
database errors. -/
theorem post_create_ne_missing_image (f : SeqFailures) (board : String) (thread : Int)
    (title author email : Option String) (sage : Bool) (content : Option String)
    (ip : IpNetwork) (image : Option Nat) (now : Int) (db : Db) :
    (Post.create f board thread title author email sage content ip image now db).1 ≠
      .err .MissingImage := by
  intro h
  simp only [Post.create] at h
  repeat' split at h
  all_goals try simp_all
  all_goals {
    have hx : Post.htmlBody f.htmlFail content board db.posts =
        RsOutcome.err Error.MissingImage := by assumption
    have := html_body_err_eq f.htmlFail content board db.posts Error.MissingImage hx
    simp at this
  }

/-- Helper: `Image::from_buf` never fails with `MissingImage`; its failures
are database, io, or codec errors. -/
theorem image_from_buf_ne_missing_image (md5 : List Nat → Nat) (f : ImgFailures)
    (buf : List Nat) (st : FsDb) :
    (Image.fromBuf md5 f buf st).1 ≠ .error .MissingImage := by
  intro h
  simp only [Image.fromBuf] at h
  repeat' split at h
  all_goals simp_all

/-- C9: under a present captcha answer that verifies, `create_post` fails
with `MissingImage` exactly when the request opens a new thread and carries
no image; a reply request with no image is never rejected for a missing image
and its outcome is exactly the outcome of the `Post::create` insertion. -/
theorem create_post_missing_image_iff
    (cid : Nat) (ans : String) (form : SubmitForm) (ip : IpNetwork) (now : Int)
    (md5 : List Nat → Nat) (imgF : ImgFailures) (seqF : SeqFailures) (st : App)
    (hans : form.captcha = some ans)
    (hcap : (Captcha.verify cid ans st.captchas).1 = true) :
    ((createPost (some (some cid)) form ip now md5 imgF seqF st).1 = .err .MissingImage
      ↔ (form.thread = none ∧ form.image = none)) ∧
    (∀ t, form.thread = some t → form.image = none →
      (createPost (some (some cid)) form ip now md5 imgF seqF st).1 =
        (match (Post.create seqF form.board t form.title form.author form.email form.sage
            form.content ip none now st.db).1 with
         | .ok _ => .ok (form.board, t)
         | .err e => .err e
         | .panicked => .panicked)) := by
  constructor
  · constructor
    · intro hres
      cases him : form.image with
      | some bytes =>
        exfalso
        cases hfb : Image.fromBuf md5 imgF bytes st.fs with
        | mk r rest =>
          cases rest with
          | mk fs' tr =>
            cases r with
            | error e =>
              simp only [createPost, hans, hcap, him, Bool.not_true, Bool.false_eq_true,
                if_false, ite_false, hfb] at hres
              have hne := image_from_buf_ne_missing_image md5 imgF bytes st.fs
              rw [hfb] at hne
              simp_all
            | ok hsh =>
              cases ht : form.thread with
              | some t =>
                simp only [createPost, hans, hcap, him, Bool.not_true, Bool.false_eq_true,
                  if_false, ite_false, hfb, createPostTail, ht] at hres
                cases hc : Post.create seqF form.board t form.title form.author form.email
                    form.sage form.content ip (some hsh) now st.db with
                | mk r2 db' =>
                  rw [hc] at hres
                  have hne := post_create_ne_missing_image seqF form.board t form.title
                    form.author form.email form.sage form.content ip (some hsh) now st.db
                  rw [hc] at hne
                  cases r2 <;> simp_all
              | none =>
                simp only [createPost, hans, hcap, him, Bool.not_true, Bool.false_eq_true,
                  if_false, ite_false, hfb, createPostTail, ht] at hres
                cases hc : Post.createThread seqF form.board form.title form.author
                    form.email form.sage form.content ip hsh now st.db with
                | mk r2 db' =>
                  rw [hc] at hres
                  have hne := post_create_thread_ne_missing_image seqF form.board form.title
                    form.author form.email form.sage form.content ip hsh now st.db
                  rw [hc] at hne
                  cases r2 <;> simp_all
      | none =>
        cases ht : form.thread with
        | none => exact ⟨rfl, rfl⟩
        | some t =>
          exfalso
          simp only [createPost, hans, hcap, him, ht, Bool.not_true, Bool.false_eq_true,
            if_false, ite_false, createPostTail] at hres
          cases hc : Post.create seqF form.board t form.title form.author form.email
              form.sage form.content ip none now st.db with
          | mk r2 db' =>
            rw [hc] at hres
            have hne := post_create_ne_missing_image seqF form.board t form.title
              form.author form.email form.sage form.content ip none now st.db
            rw [hc] at hne
            cases r2 <;> simp_all
    · rintro ⟨ht, him⟩
      simp [createPost, hans, hcap, createPostTail, ht, him]
  · intro t ht him
    cases hc : Post.create seqF form.board t form.title form.author form.email form.sage
        form.content ip none now st.db with
    | mk r2 db' =>
      cases r2 <;> simp [createPost, hans, hcap, createPostTail, ht, him, hc]

/-- C9 witness: with a verifying captcha, a thread-opening request with no
image fails with `MissingImage`. -/
theorem create_post_missing_image_iff_witness :
    (createPost (some (some 1))
        ⟨none, none, none, false, none, none, "b", none, some "a"⟩
        ⟨0, 32⟩ 0 (fun l => l.length)
        ⟨false, false, false, false, false, false, false, false⟩
        ⟨false, false, false, false, false, none⟩
        ⟨⟨[], [], []⟩, [(1, "a")], ⟨[], []⟩⟩).1 = .err .MissingImage
      ↔ ((⟨none, none, none, false, none, none, "b", none, some "a"⟩ : SubmitForm).thread =
            none ∧
          (⟨none, none, none, false, none, none, "b", none, some "a"⟩ : SubmitForm).image =
            none) :=
  (create_post_missing_image_iff 1 "a"
    ⟨none, none, none, false, none, none, "b", none, some "a"⟩ ⟨0, 32⟩ 0
    (fun l => l.length) ⟨false, false, false, false, false, false, false, false⟩
    ⟨false, false, false, false, false, none⟩ ⟨⟨[], [], []⟩, [(1, "a")], ⟨[], []⟩⟩
    rfl (by decide)).1

/-- Helper: the digit runs captured by the reply scanner are exactly the
marker tokens of the tokeniser, in order. -/
theorem replyCapturesF_eq_filterMap (fuel : Nat) :
    ∀ l, replyCapturesF fuel l = (markerSplitF fuel l).filterMap
      (fun t => match t with | .marker ds => some ds | .txt _ => none) := by
  induction fuel with
  | zero =>
    intro l
    simp only [replyCapturesF, markerSplitF, List.filterMap_map]
    induction l with
    | nil => simp
    | cons c cs ihl => simp [ihl]
  | succ n ih =>
    intro l
    match l with
    | [] => simp [replyCapturesF, markerSplitF]
    | c :: rest =>
      simp only [replyCapturesF, markerSplitF]
      by_cases hp : gtgt.isPrefixOf (c :: rest)
      · rw [if_pos hp, if_pos hp]
        by_cases hds : ((c :: rest).drop 8).takeWhile isNd = []
        · rw [if_pos hds, if_pos hds, List.filterMap_cons]
          exact ih rest
        · rw [if_neg hds, if_neg hds, List.filterMap_cons]
          rw [ih]
      · rw [if_neg hp, if_neg hp, List.filterMap_cons]
        exact ih rest

/-- Helper: the reply replacement is the flattening of the tokenisation, with
each marker substituted according to the resolved rows. -/
theorem replyReplaceF_eq_flatten (board : String) (resolved : List (Int × Int))
    (fuel : Nat) :
    ∀ l, replyReplaceF board resolved fuel l =
      ((markerSplitF fuel l).map (fun t =>
        match t with
        | .txt c => [c]
        | .marker ds =>
          match resolved.find? (fun r => r.1 == (digitsToNat ds : Int)) with
          | some r => mkLink board ds r.2
          | none => gtgt ++ ds)).flatten := by
  induction fuel with
  | zero =>
    intro l
    simp only [replyReplaceF, markerSplitF, List.map_map]
    induction l with
    | nil => simp
    | cons c cs ihl => simpa using ihl
  | succ n ih =>
    intro l
    match l with
    | [] => simp [replyReplaceF, markerSplitF]
    | c :: rest =>
      simp only [replyReplaceF, markerSplitF]
      by_cases hp : gtgt.isPrefixOf (c :: rest)
      · rw [if_pos hp, if_pos hp]
        by_cases hds : ((c :: rest).drop 8).takeWhile isNd = []
        · rw [if_pos hds, if_pos hds, List.map_cons, List.flatten_cons]
          rw [ih]
          rfl
        · rw [if_neg hds, if_neg hds, List.map_cons, List.flatten_cons]
          rw [ih]
      · rw [if_neg hp, if_neg hp, List.map_cons, List.flatten_cons]
        rw [ih]
        rfl

/-- Helper: looking up a marker id among the resolved `(id, thread)` rows is
the same as looking the post up on the board, provided the id was among the
captured ids handed to the query. -/
theorem resolved_find_eq (posts : List Post) (ids : List Int) (board : String)
    (idv : Int) (hmem : idv ∈ ids) :
    ((posts.filter (fun p => ids.contains p.id && p.board == board)).map
        (fun p => (p.id, p.thread))).find? (fun r => r.1 == idv) =
      (posts.find? (fun p => (p.id == idv) && (p.board == board))).map
        (fun p => (p.id, p.thread)) := by
  induction posts with
  | nil => simp
  | cons p ps ih =>
    by_cases hc : (ids.contains p.id && p.board == board) = true
    · simp only [List.filter_cons, hc, if_true, ite_true, List.map_cons]
      by_cases hid : (p.id == idv) = true
      · rw [List.find?_cons_of_pos _ (by simpa using hid),
          List.find?_cons_of_pos _
            (by simp [hid, (Bool.and_eq_true _ _).mp hc |>.2])]
        simp
      · rw [List.find?_cons_of_neg _ (by simpa using hid),
          List.find?_cons_of_neg _ (by simp [hid]), ih]
    · have hrhs : ((p.id == idv) && (p.board == board)) = false := by
        by_contra hx
        rw [Bool.not_eq_false, Bool.and_eq_true, beq_iff_eq] at hx
        apply hc
        rw [Bool.and_eq_true]
        refine ⟨?_, hx.2⟩
        have hpm : p.id ∈ ids := hx.1 ▸ hmem
        simpa [List.contains] using List.elem_iff.mpr hpm
      simp only [List.filter_cons, hc, if_false, Bool.false_eq_true, ite_false]
      rw [List.find?_cons_of_neg _ (by simp [hrhs]), ih]

/-- C3 (amended): whenever `html_body` returns (that is, every captured digit
run is a run of ASCII digits fitting in an `i32` and the id query succeeds),
the outgoing-reply list
contains exactly the captured marker ids that belong to an existing post on
the same board, and the returned html is the rendered source with exactly the
resolved markers replaced by hyperlinks and the unresolved ones left as
literal escaped text. -/
theorem html_body_links_exactly_resolved_markers
    (body board : String) (posts : List Post) (html : String) (out : List Int)
    (h : Post.htmlBody false (some body) board posts = .ok (html, out)) :
    (∀ N : Int, N ∈ out ↔
      (N ∈ (markerRuns body).map (fun ds => (digitsToNat ds : Int)) ∧
        ∃ p ∈ posts, p.board = board ∧ p.id = N)) ∧
    html.toList =
      ((markerSplitF ((renderedSource body).length + 1) (renderedSource body)).map
        (resolveMarker board posts)).flatten := by
  simp only [Post.htmlBody] at h
  cases hp : parseAll (markerRuns body) <;> rw [hp] at h
  · simp at h
  · rename_i ids
    simp only [Bool.false_eq_true, if_false, ite_false, RsOutcome.ok.injEq,
      Prod.mk.injEq] at h
    obtain ⟨hhtml, hout⟩ := h
    have hid : ids = (markerRuns body).map (fun run => (digitsToNat run : Int)) :=
      parseAll_eq_map _ _ hp
    constructor
    · intro N
      rw [← hout]
      constructor
      · intro hNout
        rw [List.map_map] at hNout
        obtain ⟨p, hpmem', hpeq⟩ := List.mem_map.mp hNout
        obtain ⟨hpmem, hpfil⟩ := List.mem_filter.mp hpmem'
        rw [Bool.and_eq_true] at hpfil
        have hboard : p.board = board := by simpa using hpfil.2
        have hpid : p.id ∈ ids := List.elem_iff.mp hpfil.1
        have hpidN : p.id = N := hpeq
        constructor
        · rw [hid] at hpid
          rw [← hpidN]
          exact hpid
        · exact ⟨p, hpmem, hboard, hpidN⟩
      · rintro ⟨hN, p, hpmem, hpboard, hpid⟩
        rw [List.map_map]
        refine List.mem_map.mpr ⟨p, List.mem_filter.mpr ⟨hpmem, ?_⟩, hpid⟩
        rw [Bool.and_eq_true]
        refine ⟨?_, by simpa using hpboard⟩
        refine List.elem_iff.mpr ?_
        rw [hid, hpid]
        exact hN
    · rw [← hhtml]
      have hts : ((replyReplaceF board
          ((posts.filter (fun p => ids.contains p.id && p.board == board)).map
            (fun p => (p.id, p.thread)))
          ((renderedSource body).length + 1) (renderedSource body)).asString).toList =
          replyReplaceF board
            ((posts.filter (fun p => ids.contains p.id && p.board == board)).map
              (fun p => (p.id, p.thread)))
            ((renderedSource body).length + 1) (renderedSource body) := rfl
      rw [hts, replyReplaceF_eq_flatten]
      congr 1
      refine List.map_congr_left ?_
      intro t htmem
      cases t with
      | txt c => rfl
      | marker ds =>
        have hds : ds ∈ markerRuns body := by
          have hcap : replyCapturesF ((renderedSource body).length + 1)
              (renderedSource body) =
              (markerSplitF ((renderedSource body).length + 1)
                (renderedSource body)).filterMap
                (fun t => match t with | .marker ds => some ds | .txt _ => none) :=
            replyCapturesF_eq_filterMap _ _
          show ds ∈ replyCapturesF ((renderedSource body).length + 1) (renderedSource body)
          rw [hcap]
          exact List.mem_filterMap.mpr ⟨.marker ds, htmem, rfl⟩
        have hin : (digitsToNat ds : Int) ∈ ids := by
          rw [hid]
          exact List.mem_map_of_mem _ hds
        simp only [resolveMarker]
        rw [resolved_find_eq posts ids board (digitsToNat ds) hin]
        cases posts.find? (fun p => (p.id == (digitsToNat ds : Int)) && (p.board == board))
          <;> rfl

/-- C3 witness: on the body with a single marker `5` and a board where post 5
exists, the id 5 is in the outgoing list because it was captured and post 5
exists on the board. -/
theorem html_body_links_exactly_resolved_markers_witness :
    (5 : Int) ∈ [(5 : Int)] ↔
      ((5 : Int) ∈ (markerRuns ">>5 hello").map (fun ds => (digitsToNat ds : Int)) ∧
        ∃ p ∈ [({ id := 5, board := "b", title := none, author := none, email := none,
                  sage := false, plaintextContent := none, htmlContent := "",
                  postedAt := 0, thread := 5, ip := ⟨0, 32⟩, image := none } : Post)],
          p.board = "b" ∧ p.id = (5 : Int)) :=
  (html_body_links_exactly_resolved_markers ">>5 hello" "b"
    [{ id := 5, board := "b", title := none, author := none, email := none,
       sage := false, plaintextContent := none, htmlContent := "", postedAt := 0,
       thread := 5, ip := ⟨0, 32⟩, image := none }]
    "<a href=\"/b/5#5\">&gt;&gt;5</a> hello<br>" [5] (by decide)).1 5
